import Mathlib

/-!
Verification of the RelStocks stock-alert bot.

We shallowly embed the core of the repository in Lean:

* `websocket-manager.js` — message dedup (`hasStockChanged`, `handleMessage`)
  and the reconnect state machine (`attemptReconnect`, the `open`/`close`
  handlers);
* the main app (`checkStockForUser`, `checkStock` fan-out,
  `handleBroadcastCommand`, `sendMessage`, `getNextCheckTime`);
* `stock-manager.js` (`StockManager.checkStockForUser`), a second variant of
  the slow-restock policy kept in the repository.

Machine integers are modelled as `Nat`/`Int` (JS numbers stay far below 2^53
here, so no overflow modelling is needed); timestamps are milliseconds since
the epoch as `Nat`; JS `Map`/`Set` state is explicit record state.
-/

/-- One entry of a stock category array: `{ item_id, quantity }`. -/
structure Item where
  item_id : String
  quantity : Int
deriving DecidableEq, Repr

/-- A raw snapshot message.  A category key absent from the JSON object is
`none`; a present (possibly empty) array is `some`. -/
structure Snapshot where
  seed_stock : Option (List Item)
  gear_stock : Option (List Item)
  egg_stock : Option (List Item)
  cosmetic_stock : Option (List Item)
  eventshop_stock : Option (List Item)
deriving DecidableEq, Repr

/-- The four categories compared by `hasStockChanged`
(`['seed_stock', 'gear_stock', 'egg_stock', 'eventshop_stock']`). -/
inductive TrackedCat where
  | seed
  | gear
  | egg
  | event
deriving DecidableEq, Repr

/-- Field access `data[category]` for a tracked category. -/
def Snapshot.get (s : Snapshot) : TrackedCat → Option (List Item)
  | .seed => s.seed_stock
  | .gear => s.gear_stock
  | .egg => s.egg_stock
  | .event => s.eventshop_stock

/-- Iteration order of the `for (const category of categories)` loop in
`hasStockChanged`. -/
def trackedCategories : List TrackedCat := [.seed, .gear, .egg, .event]

/-- `` `${item.item_id}:${item.quantity}` `` -/
def encodeItem (it : Item) : String := it.item_id ++ ":" ++ toString it.quantity

/-- `data[category].map(item => `${item.item_id}:${item.quantity}`).sort()` —
the order-independent encoding of one category. -/
def encodeCat (items : List Item) : List String :=
  List.insertionSort (· ≤ ·) (items.map encodeItem)

/-- One category's contribution to `hasStockChanged`: `true` when this
category makes the comparison report a change.  Both present: compare the
sorted encodings (the JS code compares their `JSON.stringify`, which is
injective on string arrays); otherwise the `newData[category] !==
lastStockData[category]` branch: both absent compare equal, mixed
presence differs. -/
def catChanged : Option (List Item) → Option (List Item) → Bool
  | some n, some o => decide (encodeCat n ≠ encodeCat o)
  | none, none => false
  | _, _ => true

/-- `WebSocketManager.hasStockChanged(newData)` against the stored
`lastStockData` (`none` when no message has been forwarded yet). -/
def hasStockChanged (lastStockData : Option Snapshot) (newData : Snapshot) : Bool :=
  match lastStockData with
  | none => true
  | some old => trackedCategories.any fun c => catChanged (newData.get c) (old.get c)

/-- The guard in `handleMessage`: the message has at least one stock
category key (cosmetic included). -/
def isStockMessage (m : Snapshot) : Bool :=
  m.seed_stock.isSome || m.gear_stock.isSome || m.egg_stock.isSome ||
    m.cosmetic_stock.isSome || m.eventshop_stock.isSome

/-- `WebSocketManager.handleMessage`: returns the new `lastStockData` and
whether the message was forwarded (`onStockUpdate` invoked). -/
def handleMessage (lastStockData : Option Snapshot) (m : Snapshot) :
    Option Snapshot × Bool :=
  if isStockMessage m then
    if hasStockChanged lastStockData m then (some m, true) else (lastStockData, false)
  else (lastStockData, false)

/-- Spec-side comparison: two category values are "the same" when both are
absent, or both present with the same multiset of `id:quantity` encodings
(order-independent comparison). -/
def specSameCategory : Option (List Item) → Option (List Item) → Prop
  | some n, some o => (n.map encodeItem).Perm (o.map encodeItem)
  | none, none => True
  | _, _ => False

instance : ∀ a b, Decidable (specSameCategory a b)
  | some n, some o => inferInstanceAs (Decidable ((n.map encodeItem).Perm (o.map encodeItem)))
  | none, none => inferInstanceAs (Decidable True)
  | some _, none => inferInstanceAs (Decidable False)
  | none, some _ => inferInstanceAs (Decidable False)

/-! ## websocket-manager.js: reconnect state machine -/

/-- The mutable connection fields of `WebSocketManager` that the reconnect
logic touches. -/
structure WSState where
  reconnectAttempts : Nat
  isConnected : Bool
deriving DecidableEq, Repr

/-- `this.maxReconnectAttempts = 5`. -/
def maxReconnectAttempts : Nat := 5

/-- `this.reconnectDelay = 5000`. -/
def reconnectDelay : Nat := 5000

/-- `attemptReconnect()`: returns the new state together with the delay (ms)
of the scheduled `connect()` call, or `none` when the attempt cap stops
reconnection. -/
def attemptReconnect (st : WSState) : WSState × Option Nat :=
  if maxReconnectAttempts ≤ st.reconnectAttempts then
    (st, none)
  else
    ({ st with reconnectAttempts := st.reconnectAttempts + 1 },
      some (reconnectDelay * (st.reconnectAttempts + 1)))

/-- The `'close'` handler: clears `isConnected` and calls
`attemptReconnect()`. -/
def onClose (st : WSState) : WSState × Option Nat :=
  attemptReconnect { st with isConnected := false }

/-- The `'open'` handler: sets `isConnected` and resets the attempt
counter to zero. -/
def onOpen (st : WSState) : WSState :=
  { st with isConnected := true, reconnectAttempts := 0 }

/-- `k` successive close events (ignoring the scheduled delays). -/
def closesIter : Nat → WSState → WSState
  | 0, st => st
  | k + 1, st => closesIter k (onClose st).1

/-! ## Scheduler: `getNextCheckTime` (identical in `src/index.js` and the
main-app variant) -/

/-- `getNextCheckTime()` with the current time `now` in ms since the epoch.
Converts to UTC+08:00, rounds the minute-of-hour up to the next multiple of
5 (`Math.ceil(minutes / 5) * 5`, `Nat`-ceiling `(m + 4) / 5 * 5`), zeroes
seconds and milliseconds, and converts back. -/
def getNextCheckTime (now : Nat) : Nat :=
  let phTime := now + 8 * 60 * 60 * 1000
  let minutes := phTime / 60000 % 60
  let hourStart := phTime - phTime % 3600000
  let nextCheck := hourStart + ((minutes + 4) / 5 * 5) * 60000
  nextCheck - 8 * 60 * 60 * 1000

/-! ## Main app: `checkStockForUser` (the live Snapshot Differ policy)

The per-category memory (`lastSeenStock`, `lastCheckTime30Min`) is two
module-level `Map`s keyed only by `'egg_stock'` and `'eventshop_stock'`;
we model them as one record with a field per key, `Map.get(c) || new
Set()` becoming an initial `[]` and `|| 0` an initial `0`. -/

/-- A watch list (`defaultAlerts` or a user's custom alerts): per category,
an optional array of item ids (`alertsToCheck[category]` may be absent, in
which case `?.includes` is undefined, i.e. no match). -/
structure AlertsConfig where
  seed_stock : Option (List String)
  gear_stock : Option (List String)
  egg_stock : Option (List String)
  eventshop_stock : Option (List String)
deriving DecidableEq, Repr

/-- The `defaultAlerts` object of the main app (its `eventshop_stock` line
is commented out). -/
def defaultAlerts : AlertsConfig where
  seed_stock := some ["banana", "pineapple", "avocado", "kiwi", "bell_pepper",
    "prickly_pear", "loquat", "feijoa", "sugar_apple"]
  gear_stock := some ["advanced_sprinkler", "master_sprinkler", "godly_sprinkler",
    "tanning_mirror", "lightning_rod", "friendship_pot"]
  egg_stock := some ["bug_egg", "mythical_egg", "paradise_egg"]
  eventshop_stock := none

/-- `formatItemName`: snake_case to Title Case
(`itemId.split('_').map(w => w.charAt(0).toUpperCase() + w.slice(1)).join(' ')`). -/
def formatItemName (itemId : String) : String :=
  String.intercalate " " ((itemId.splitOn "_").map fun w =>
    match w.data with
    | [] => ""
    | c :: rest => String.mk (c.toUpper :: rest))

/-- `categoryNames` of the main app. -/
def categoryName : TrackedCat → String
  | .seed => "🌱 Seeds"
  | .gear => "🛠️ Gear"
  | .egg => "🥚 Eggs"
  | .event => "🎪 Event Shop"

/-- `data[category]?.filter(item => item && item.item_id &&
alertsToCheck[category]?.includes(item.item_id))`: a truthy (non-empty)
`item_id` that the watch list contains.  An absent category or absent
watch-list entry yields no matches. -/
def matchesIn (watch : Option (List String)) (items : Option (List Item)) : List Item :=
  (items.getD []).filter fun it =>
    !(it.item_id == "") && (watch.getD []).contains it.item_id

/-- One `foundItems` block:
`` `${categoryNames[category]}\n${matches.map(i => `• ${formatItemName(i.item_id)}`).join('\n')}` ``. -/
def blockOf (c : TrackedCat) (matchList : List Item) : String :=
  categoryName c ++ "\n" ++
    String.intercalate "\n" (matchList.map fun i => "• " ++ formatItemName i.item_id)

/-- `new Set(matches.map(i => i.item_id))` as a first-occurrence-preserving
deduplicated list. -/
def jsSetOf (l : List String) : List String :=
  l.foldl (fun acc x => if acc.contains x then acc else acc ++ [x]) []

/-- `x ∈ jsSetOf l ↔ x ∈ l` (membership is all the code observes of the
stored `Set`, via `.has` and spreading). -/
theorem mem_jsSetOf {x : String} {l : List String} : x ∈ jsSetOf l ↔ x ∈ l := by
  have key : ∀ (l : List String) (acc : List String),
      x ∈ l.foldl (fun acc x => if acc.contains x then acc else acc ++ [x]) acc ↔
        x ∈ acc ∨ x ∈ l := by
    intro l
    induction l with
    | nil => intro acc; simp
    | cons y ys ih =>
      intro acc
      by_cases hy : acc.contains y
      · simp only [List.foldl_cons, hy, if_pos, ih, List.mem_cons]
        constructor
        · rintro (h | h)
          · exact Or.inl h
          · exact Or.inr (Or.inr h)
        · rintro (h | rfl | h)
          · exact Or.inl h
          · exact Or.inl (by simpa using hy)
          · exact Or.inr h
      · simp only [List.foldl_cons, hy, if_neg, Bool.false_eq_true,
          not_false_eq_true, ih, List.mem_append, List.mem_singleton, List.mem_cons]
        tauto
  simpa [jsSetOf] using key l []

/-- The process-wide category memory: `lastSeenStock` and
`lastCheckTime30Min`, one entry per slow-restock category. -/
structure DifferState where
  lastSeenEgg : List String
  lastSeenEvent : List String
  lastCheckEgg : Nat
  lastCheckEvent : Nat
deriving DecidableEq, Repr

/-- Initial memory: both `Map`s empty (`.get` falls back to
`new Set()` / `0`). -/
def initialDiffer : DifferState := ⟨[], [], 0, 0⟩

/-- The body of the `for (let category of ['egg_stock', 'eventshop_stock'])`
loop of the live `checkStockForUser`, for one category: given the
watch list entry, the snapshot's category value, `hasNewSeedOrGear`, `now`
and this category's memory, returns the pushed `foundItems` blocks (empty
or one block) and the updated memory pair. -/
def slowStep (c : TrackedCat) (watch : Option (List String))
    (items : Option (List Item)) (hasNewSeedOrGear : Bool) (now : Nat)
    (lastSeen : List String) (lastCheck : Nat) :
    List String × List String × Nat :=
  let matchList := matchesIn watch items
  if matchList.isEmpty then ([], lastSeen, lastCheck)
  else
    let currentItems := jsSetOf (matchList.map (·.item_id))
    let is30MinInterval := 30 * 60 * 1000 ≤ now - lastCheck
    let hasNewItems := currentItems.any fun item => !lastSeen.contains item
    if hasNewItems || hasNewSeedOrGear then
      ([blockOf c matchList], currentItems,
        if is30MinInterval then now else lastCheck)
    else
      ([], currentItems, lastCheck)

/-- Result of one `checkStockForUser(userId, data, ...)` call: the
`foundItems` blocks (the alert text is their `join('\n\n')`; a message is
sent iff the list is non-empty) and the category memory afterwards. -/
structure CheckResult where
  foundItems : List String
  state : DifferState
deriving DecidableEq, Repr

/-- The live `checkStockForUser` (main app): seed/gear first — presence of
any watch-list match sets `hasNewSeedOrGear` and pushes the block — then
the two slow-restock categories via `slowStep`. -/
def checkStockForUser (alerts : AlertsConfig) (data : Snapshot) (now : Nat)
    (st : DifferState) : CheckResult :=
  let seedMatches := matchesIn alerts.seed_stock data.seed_stock
  let gearMatches := matchesIn alerts.gear_stock data.gear_stock
  let seedGearBlocks :=
    (if seedMatches.isEmpty then [] else [blockOf .seed seedMatches]) ++
      (if gearMatches.isEmpty then [] else [blockOf .gear gearMatches])
  let hasNewSeedOrGear := !seedMatches.isEmpty || !gearMatches.isEmpty
  let egg := slowStep .egg alerts.egg_stock data.egg_stock hasNewSeedOrGear now
    st.lastSeenEgg st.lastCheckEgg
  let event := slowStep .event alerts.eventshop_stock data.eventshop_stock
    hasNewSeedOrGear now st.lastSeenEvent st.lastCheckEvent
  { foundItems := seedGearBlocks ++ egg.1 ++ event.1
    state := ⟨egg.2.1, event.2.1, egg.2.2, event.2.2⟩ }

/-! ## `StockManager.checkStockForUser` (stock-manager.js variant)

The repository keeps a second slow-restock policy in `StockManager`: there
`shouldNotify = hasNewItems || timeSinceLastCheck > 30 * 60 * 1000`, and the
tracking maps are updated only inside `if (shouldNotify)`. -/

/-- The slow-restock loop body of `StockManager.checkStockForUser` for one
category. -/
def stockManagerSlowStep (c : TrackedCat) (watch : Option (List String))
    (items : Option (List Item)) (now : Nat)
    (lastSeen : List String) (lastCheck : Nat) :
    List String × List String × Nat :=
  let matchList := matchesIn watch items
  if matchList.isEmpty then ([], lastSeen, lastCheck)
  else
    let currentItems := jsSetOf (matchList.map (·.item_id))
    let hasNewItems := currentItems.any fun item => !lastSeen.contains item
    let timeSinceLastCheck := now - lastCheck
    let shouldNotify := hasNewItems || decide (30 * 60 * 1000 < timeSinceLastCheck)
    if shouldNotify then ([blockOf c matchList], currentItems, now)
    else ([], lastSeen, lastCheck)

/-- `StockManager.checkStockForUser` (same seed/gear pass; its
`hasNewSeedOrGear` flag is set but never read by the slow-restock loop). -/
def stockManagerCheck (alerts : AlertsConfig) (data : Snapshot) (now : Nat)
    (st : DifferState) : CheckResult :=
  let seedMatches := matchesIn alerts.seed_stock data.seed_stock
  let gearMatches := matchesIn alerts.gear_stock data.gear_stock
  let seedGearBlocks :=
    (if seedMatches.isEmpty then [] else [blockOf .seed seedMatches]) ++
      (if gearMatches.isEmpty then [] else [blockOf .gear gearMatches])
  let egg := stockManagerSlowStep .egg alerts.egg_stock data.egg_stock now
    st.lastSeenEgg st.lastCheckEgg
  let event := stockManagerSlowStep .event alerts.eventshop_stock
    data.eventshop_stock now st.lastSeenEvent st.lastCheckEvent
  { foundItems := seedGearBlocks ++ egg.1 ++ event.1
    state := ⟨egg.2.1, event.2.1, egg.2.2, event.2.2⟩ }

/-! ## Subscriber fan-out (`checkStock(null, true)` / the WebSocket
`onStockUpdate` handler)

`Array.from(stockManager.subscribers).map(userId =>
checkStockForUser(userId, data, true))`: every per-subscriber check runs
against the same module-level category memory; the memory mutations of the
checks serialize in fan-out order.  We model the fan-out as that sequential
threading of `DifferState`. -/

/-- Fan one snapshot out to `users` in order, threading the shared category
memory; returns each user's `foundItems` and the final memory. -/
def fanOutChecks (users : List String) (alertsFor : String → AlertsConfig)
    (data : Snapshot) (now : Nat) (st : DifferState) :
    List (String × List String) × DifferState :=
  users.foldl
    (fun acc u =>
      let r := checkStockForUser (alertsFor u) data now acc.2
      (acc.1 ++ [(u, r.foundItems)], r.state))
    ([], st)

/-! ## `handleBroadcastCommand`: two-wave dispatch with one retry -/

/-- Aggregate outcome of a broadcast: the final counters, the list of
`sendMessage` calls made (in order), and the recipients retried in the
second wave. -/
structure BroadcastResult where
  succeeded : Int
  failed : Int
  attempts : List String
  retried : List String
deriving DecidableEq, Repr

/-- First wave: for each subscriber, on success `successCount++`, on a
falsy result or a thrown error `failedSubscribers.add(userId); failCount++`.
Returns `(successCount, failCount, failedSubscribers)`. -/
def broadcastWave1 (send1 : String → Bool) (recips : List String) :
    Int × Int × List String :=
  recips.foldl
    (fun acc u =>
      if send1 u then (acc.1 + 1, acc.2.1, acc.2.2)
      else (acc.1, acc.2.1 + 1, acc.2.2 ++ [u]))
    (0, 0, [])

/-- Retry wave over `failedSubscribers`: on success `successCount++;
failCount--`, otherwise only a log. -/
def broadcastRetry (send2 : String → Bool) (failed : List String)
    (s f : Int) : Int × Int :=
  failed.foldl (fun acc u => if send2 u then (acc.1 + 1, acc.2 - 1) else acc) (s, f)

/-- The dispatch core of `handleBroadcastCommand`: first wave to all
subscribers, `Promise.allSettled`, then one retry wave over the failed
set.  `send1`/`send2` give each recipient's delivery outcome in the
respective wave. -/
def handleBroadcast (recips : List String) (send1 send2 : String → Bool) :
    BroadcastResult :=
  let w1 := broadcastWave1 send1 recips
  let final := broadcastRetry send2 w1.2.2 w1.1 w1.2.1
  { succeeded := final.1
    failed := final.2
    attempts := recips ++ w1.2.2
    retried := w1.2.2 }

/-! ## `sendMessage`: unbounded rate-limit retry recursion -/

/-- Outcome of one Facebook send attempt: HTTP success, a rate-limit error
(Facebook error code 4 or 17), or any other failure. -/
inductive SendOutcome where
  | ok
  | rateLimit
  | otherFail
deriving DecidableEq, Repr

/-- `sendMessage` with explicit fuel: attempt `k` consults `outcomes k`;
`ok` returns `true`, any non-rate-limit failure returns `false`, and a
rate-limit error waits 5000 ms and recurses (`return sendMessage(...)`).
The result is `none` when `fuel` attempts did not suffice (the recursion is
still running), paired with the total milliseconds spent waiting. -/
def sendMessageRec (outcomes : Nat → SendOutcome) : Nat → Nat → Option Bool × Nat
  | 0, _ => (none, 0)
  | fuel + 1, k =>
    match outcomes k with
    | .ok => (some true, 0)
    | .otherFail => (some false, 0)
    | .rateLimit =>
      let r := sendMessageRec outcomes fuel (k + 1)
      (r.1, 5000 + r.2)

/-- `sendMessage(recipientId, message)` starting at attempt 0. -/
def sendMessageModel (outcomes : Nat → SendOutcome) (fuel : Nat) :
    Option Bool × Nat :=
  sendMessageRec outcomes fuel 0

/-! ## Shared lemmas -/

/-- The first character of a `foundItems` block is the category label's
leading character. -/
theorem head_data_blockOf (c : TrackedCat) (l : List Item) :
    (blockOf c l).data.head? = (categoryName c).data.head? := by
  unfold blockOf
  rw [String.data_append, String.data_append, List.append_assoc]
  exact List.head?_append_of_ne_nil _ (by cases c <;> decide)

/-- Blocks of distinct categories are distinct strings (their labels start
with distinct characters), whatever the item lists are. -/
theorem blockOf_ne (c₁ c₂ : TrackedCat) (l₁ l₂ : List Item) (hc : c₁ ≠ c₂) :
    blockOf c₁ l₁ ≠ blockOf c₂ l₂ := by
  intro he
  have h := congrArg (fun s => s.data.head?) he
  simp only [head_data_blockOf] at h
  cases c₁ <;> cases c₂ <;> first
    | exact hc rfl
    | exact absurd h (by decide)

/-- Once the attempt counter is at the cap, further close events leave it
unchanged and schedule nothing. -/
theorem closesIter_capped (k : Nat) :
    ∀ st : WSState, maxReconnectAttempts ≤ st.reconnectAttempts →
      (closesIter k st).reconnectAttempts = st.reconnectAttempts ∧
        (onClose (closesIter k st)).2 = none := by
  induction k with
  | zero =>
    intro st h
    exact ⟨rfl, by simp [closesIter, onClose, attemptReconnect, h]⟩
  | succ k ih =>
    intro st h
    have hstep : (onClose st).1 = { st with isConnected := false } := by
      simp [onClose, attemptReconnect, h]
    have := ih { st with isConnected := false } h
    simpa [closesIter, hstep] using this

/-- C7: a close below the cap increments the counter and schedules a
reconnect after `reconnectDelay * newAttemptNumber`; at the cap, no close
ever schedules a reconnect again (and the counter stays put); a successful
open resets the counter to zero from any state. -/
theorem c7_reconnect_policy (st : WSState) :
    (st.reconnectAttempts < maxReconnectAttempts →
      (onClose st).1.reconnectAttempts = st.reconnectAttempts + 1 ∧
        (onClose st).2 = some (reconnectDelay * (st.reconnectAttempts + 1))) ∧
    (maxReconnectAttempts ≤ st.reconnectAttempts →
      ∀ k, (closesIter k st).reconnectAttempts = st.reconnectAttempts ∧
        (onClose (closesIter k st)).2 = none) ∧
    (onOpen st).reconnectAttempts = 0 := by
  refine ⟨fun h => ?_, fun h k => closesIter_capped k st h, rfl⟩
  simp [onClose, attemptReconnect, Nat.not_le.mpr h]

/-- Witness for C7 at concrete states: three failures so far, a close
schedules the fourth attempt after 20 s; at five failures the counter is
stuck and nothing is scheduled; an open from five failures resets to 0. -/
theorem c7_reconnect_policy_witness :
    ((3 : Nat) < maxReconnectAttempts ∧
      (onClose ⟨3, true⟩).1.reconnectAttempts = 4 ∧
        (onClose ⟨3, true⟩).2 = some 20000) ∧
    (maxReconnectAttempts ≤ (5 : Nat) ∧
      (closesIter 2 ⟨5, false⟩).reconnectAttempts = 5 ∧
        (onClose (closesIter 2 ⟨5, false⟩)).2 = none) ∧
    (onOpen ⟨5, false⟩).reconnectAttempts = 0 := by
  refine ⟨⟨by decide, ?_⟩, ⟨by decide, ?_⟩, (c7_reconnect_policy ⟨5, false⟩).2.2⟩
  · have h := (c7_reconnect_policy ⟨3, true⟩).1 (by decide)
    simpa [reconnectDelay] using h
  · exact (c7_reconnect_policy ⟨5, false⟩).2.1 (by decide) 2

/-- Rate-limited attempts: the recursion consumes all fuel, waiting 5 s per
attempt, and never produces a result. -/
theorem sendMessageRec_rateLimited (outcomes : Nat → SendOutcome)
    (h : ∀ k, outcomes k = .rateLimit) :
    ∀ fuel k, sendMessageRec outcomes fuel k = (none, 5000 * fuel) := by
  intro fuel
  induction fuel with
  | zero => intro k; rfl
  | succ fuel ih =>
    intro k
    simp only [sendMessageRec, h k, ih (k + 1)]
    exact Prod.ext rfl (by ring)

/-- C9: under persistent Facebook rate-limit errors (code 4 or 17) the
recursive retry of `sendMessage` never terminates — for every fuel bound it
is still running (`none`), having waited 5000 ms per attempt — so it never
returns `false`. -/
theorem c9_rate_limit_retry_diverges (outcomes : Nat → SendOutcome)
    (h : ∀ k, outcomes k = .rateLimit) (fuel : Nat) :
    sendMessageModel outcomes fuel = (none, 5000 * fuel) ∧
      (sendMessageModel outcomes fuel).1 ≠ some false :=
  ⟨sendMessageRec_rateLimited outcomes h fuel 0, by
    rw [sendMessageModel, sendMessageRec_rateLimited outcomes h fuel 0]
    simp⟩

/-- Witness for C9: the all-rate-limited oracle with fuel 3. -/
theorem c9_rate_limit_retry_diverges_witness :
    sendMessageModel (fun _ => SendOutcome.rateLimit) 3 = (none, 15000) ∧
      (sendMessageModel (fun _ => SendOutcome.rateLimit) 3).1 ≠ some false := by
  have h := c9_rate_limit_retry_diverges (fun _ => SendOutcome.rateLimit)
    (fun _ => rfl) 3
  simpa using h

/-! ## C2: the three-snapshot egg scenario -/

/-- The scenario snapshot `{egg_stock: [bug_egg]}`. -/
def eggOnlySnapshot : Snapshot := ⟨none, none, some [⟨"bug_egg", 1⟩], none, none⟩

/-- C2 counterexample: on the live `checkStockForUser`, the first snapshot
containing `bug_egg` is eligible and a repeat after one minute is not, but
the identical third snapshot after 31 minutes — no new items, no
immediate-category match — is NOT eligible either (`foundItems` is empty,
no alert text at all), contrary to the claim. -/
theorem c2_slow_restock_scenario_counterexample :
    (checkStockForUser defaultAlerts eggOnlySnapshot 1000000000000
        initialDiffer).foundItems ≠ [] ∧
    (checkStockForUser defaultAlerts eggOnlySnapshot (1000000000000 + 60000)
        (checkStockForUser defaultAlerts eggOnlySnapshot 1000000000000
          initialDiffer).state).foundItems = [] ∧
    (checkStockForUser defaultAlerts eggOnlySnapshot (1000000000000 + 31 * 60000)
        (checkStockForUser defaultAlerts eggOnlySnapshot (1000000000000 + 60000)
          (checkStockForUser defaultAlerts eggOnlySnapshot 1000000000000
            initialDiffer).state).state).foundItems = [] := by
  refine ⟨by decide, by decide, by decide⟩

/-- C2 amended: in the live `checkStockForUser` eligibility is
`hasNewItems || hasNewSeedOrGear` — the 30-minute window gates only the
`lastCheckTime30Min` update — so the third identical snapshot after 31
minutes is still not eligible; the claimed window-elapsed re-eligibility
(first eligible, 1-minute repeat not, 31-minute repeat eligible) holds only
of the `StockManager.checkStockForUser` variant, where
`shouldNotify = hasNewItems || timeSinceLastCheck > 30 min`. -/
theorem c2_slow_restock_scenario_amended :
    ((checkStockForUser defaultAlerts eggOnlySnapshot 1000000000000
        initialDiffer).foundItems ≠ [] ∧
      (checkStockForUser defaultAlerts eggOnlySnapshot (1000000000000 + 60000)
          (checkStockForUser defaultAlerts eggOnlySnapshot 1000000000000
            initialDiffer).state).foundItems = [] ∧
      (checkStockForUser defaultAlerts eggOnlySnapshot (1000000000000 + 31 * 60000)
          (checkStockForUser defaultAlerts eggOnlySnapshot (1000000000000 + 60000)
            (checkStockForUser defaultAlerts eggOnlySnapshot 1000000000000
              initialDiffer).state).state).foundItems = []) ∧
    ((stockManagerCheck defaultAlerts eggOnlySnapshot 1000000000000
        initialDiffer).foundItems ≠ [] ∧
      (stockManagerCheck defaultAlerts eggOnlySnapshot (1000000000000 + 60000)
          (stockManagerCheck defaultAlerts eggOnlySnapshot 1000000000000
            initialDiffer).state).foundItems = [] ∧
      (stockManagerCheck defaultAlerts eggOnlySnapshot (1000000000000 + 31 * 60000)
          (stockManagerCheck defaultAlerts eggOnlySnapshot (1000000000000 + 60000)
            (stockManagerCheck defaultAlerts eggOnlySnapshot 1000000000000
              initialDiffer).state).state).foundItems ≠ []) := by
  exact ⟨⟨by decide, by decide, by decide⟩, ⟨by decide, by decide, by decide⟩⟩

/-- Spreading the `Set` back to a list preserves `some(...)` queries. -/
theorem any_jsSetOf (p : String → Bool) (l : List String) :
    (jsSetOf l).any p = l.any p := by
  rw [Bool.eq_iff_iff, List.any_eq_true, List.any_eq_true]
  exact ⟨fun ⟨x, hx, hp⟩ => ⟨x, mem_jsSetOf.mp hx, hp⟩,
    fun ⟨x, hx, hp⟩ => ⟨x, mem_jsSetOf.mpr hx, hp⟩⟩

/-- No element of a list is missing from itself: the `hasNewItems` test
returns `false` when `lastSeen` already holds exactly the current items. -/
theorem any_not_contains_self (L : List String) :
    (L.any fun x => !L.contains x) = false := by
  rw [List.any_eq_false]
  intro x hx
  simpa using hx

/-- Branch-level description of `slowStep`: no matches — nothing happens;
otherwise the block is pushed iff some matched id is not in `lastSeen` or
an immediate category matched, `lastSeen` always becomes the current id
set, and `lastCheck` moves to `now` only on an eligible pass with the
30-minute window elapsed. -/
theorem slowStep_spec (c : TrackedCat) (w : Option (List String))
    (i : Option (List Item)) (hNSG : Bool) (now : Nat)
    (seen : List String) (chk : Nat) :
    slowStep c w i hNSG now seen chk =
      if matchesIn w i = [] then ([], seen, chk)
      else if (matchesIn w i).any (fun it => !seen.contains it.item_id) || hNSG then
        ([blockOf c (matchesIn w i)], jsSetOf ((matchesIn w i).map (·.item_id)),
          if 30 * 60 * 1000 ≤ now - chk then now else chk)
      else ([], jsSetOf ((matchesIn w i).map (·.item_id)), chk) := by
  unfold slowStep
  by_cases h1 : matchesIn w i = []
  · simp [h1]
  · have h1' : (matchesIn w i).isEmpty = false := by
      simp [List.isEmpty_eq_false, h1]
    have hAny : ((jsSetOf ((matchesIn w i).map (·.item_id))).any
        fun item => !seen.contains item) =
        (matchesIn w i).any fun it => !seen.contains it.item_id := by
      rw [Bool.eq_iff_iff, List.any_eq_true, List.any_eq_true]
      constructor
      · rintro ⟨x, hx, hp⟩
        rcases List.mem_map.mp (mem_jsSetOf.mp hx) with ⟨it, hit, rfl⟩
        exact ⟨it, hit, hp⟩
      · rintro ⟨it, hit, hp⟩
        exact ⟨it.item_id, mem_jsSetOf.mpr (List.mem_map_of_mem _ hit), hp⟩
    simp only [h1', Bool.false_eq_true, if_false, if_neg h1, hAny]

/-- The blocks component of `slowStep` when there are matches. -/
theorem slowStep_fst_eq (c : TrackedCat) (w : Option (List String))
    (i : Option (List Item)) (hNSG : Bool) (now : Nat)
    (seen : List String) (chk : Nat) (hne : matchesIn w i ≠ []) :
    (slowStep c w i hNSG now seen chk).1 =
      if ((matchesIn w i).any (fun it => !seen.contains it.item_id) || hNSG) = true
      then [blockOf c (matchesIn w i)] else [] := by
  rw [slowStep_spec, if_neg hne]
  split_ifs <;> rfl

/-- The blocks component of `slowStep` is `[]` or the category's block. -/
theorem slowStep_fst_cases (c : TrackedCat) (w : Option (List String))
    (i : Option (List Item)) (hNSG : Bool) (now : Nat)
    (seen : List String) (chk : Nat) :
    (slowStep c w i hNSG now seen chk).1 = [] ∨
      (slowStep c w i hNSG now seen chk).1 = [blockOf c (matchesIn w i)] := by
  rw [slowStep_spec]
  split_ifs <;> simp

/-- `lastSeen` after `slowStep` with matches: always the current id set. -/
theorem slowStep_seen_eq (c : TrackedCat) (w : Option (List String))
    (i : Option (List Item)) (hNSG : Bool) (now : Nat)
    (seen : List String) (chk : Nat) (hne : matchesIn w i ≠ []) :
    (slowStep c w i hNSG now seen chk).2.1 =
      jsSetOf ((matchesIn w i).map (·.item_id)) := by
  rw [slowStep_spec, if_neg hne]
  split_ifs <;> rfl

/-- `lastCheck` after `slowStep`: unchanged, or set to `now` with the
30-minute window elapsed. -/
theorem slowStep_chk_cases (c : TrackedCat) (w : Option (List String))
    (i : Option (List Item)) (hNSG : Bool) (now : Nat)
    (seen : List String) (chk : Nat) :
    (slowStep c w i hNSG now seen chk).2.2 = chk ∨
      ((slowStep c w i hNSG now seen chk).2.2 = now ∧
        30 * 60 * 1000 ≤ now - chk) := by
  rw [slowStep_spec]
  split_ifs with h1 h2 h3
  · exact Or.inl rfl
  · exact Or.inr ⟨rfl, h3⟩
  · exact Or.inl rfl
  · exact Or.inl rfl

/-- `foundItems` of the live `checkStockForUser`, componentwise. -/
theorem checkStockForUser_foundItems (alerts : AlertsConfig) (data : Snapshot)
    (now : Nat) (st : DifferState) :
    (checkStockForUser alerts data now st).foundItems =
      ((if (matchesIn alerts.seed_stock data.seed_stock).isEmpty then ([] : List String)
          else [blockOf .seed (matchesIn alerts.seed_stock data.seed_stock)]) ++
        (if (matchesIn alerts.gear_stock data.gear_stock).isEmpty then ([] : List String)
          else [blockOf .gear (matchesIn alerts.gear_stock data.gear_stock)])) ++
      (slowStep .egg alerts.egg_stock data.egg_stock
        (!(matchesIn alerts.seed_stock data.seed_stock).isEmpty ||
          !(matchesIn alerts.gear_stock data.gear_stock).isEmpty) now
        st.lastSeenEgg st.lastCheckEgg).1 ++
      (slowStep .event alerts.eventshop_stock data.eventshop_stock
        (!(matchesIn alerts.seed_stock data.seed_stock).isEmpty ||
          !(matchesIn alerts.gear_stock data.gear_stock).isEmpty) now
        st.lastSeenEvent st.lastCheckEvent).1 := rfl

/-- The memory after the live `checkStockForUser`, componentwise. -/
theorem checkStockForUser_state (alerts : AlertsConfig) (data : Snapshot)
    (now : Nat) (st : DifferState) :
    (checkStockForUser alerts data now st).state =
      ⟨(slowStep .egg alerts.egg_stock data.egg_stock
          (!(matchesIn alerts.seed_stock data.seed_stock).isEmpty ||
            !(matchesIn alerts.gear_stock data.gear_stock).isEmpty) now
          st.lastSeenEgg st.lastCheckEgg).2.1,
        (slowStep .event alerts.eventshop_stock data.eventshop_stock
          (!(matchesIn alerts.seed_stock data.seed_stock).isEmpty ||
            !(matchesIn alerts.gear_stock data.gear_stock).isEmpty) now
          st.lastSeenEvent st.lastCheckEvent).2.1,
        (slowStep .egg alerts.egg_stock data.egg_stock
          (!(matchesIn alerts.seed_stock data.seed_stock).isEmpty ||
            !(matchesIn alerts.gear_stock data.gear_stock).isEmpty) now
          st.lastSeenEgg st.lastCheckEgg).2.2,
        (slowStep .event alerts.eventshop_stock data.eventshop_stock
          (!(matchesIn alerts.seed_stock data.seed_stock).isEmpty ||
            !(matchesIn alerts.gear_stock data.gear_stock).isEmpty) now
          st.lastSeenEvent st.lastCheckEvent).2.2⟩ := rfl

/-- A block of another category never occurs in an optional
seed/gear block list. -/
theorem not_mem_ite_block {s : String} (b : Bool)
    (c : TrackedCat) (l : List Item) (h : s ≠ blockOf c l) :
    s ∉ (if b then ([] : List String) else [blockOf c l]) := by
  cases b
  · simp [h]
  · simp

/-- Egg-category membership in `foundItems` as the boolean eligibility
condition of the live `checkStockForUser`. -/
theorem mem_foundItems_egg_iff (alerts : AlertsConfig) (data : Snapshot)
    (now : Nat) (st : DifferState)
    (hEgg : matchesIn alerts.egg_stock data.egg_stock ≠ []) :
    blockOf .egg (matchesIn alerts.egg_stock data.egg_stock) ∈
        (checkStockForUser alerts data now st).foundItems ↔
      ((matchesIn alerts.egg_stock data.egg_stock).any
          (fun it => !st.lastSeenEgg.contains it.item_id) ||
        (!(matchesIn alerts.seed_stock data.seed_stock).isEmpty ||
          !(matchesIn alerts.gear_stock data.gear_stock).isEmpty)) = true := by
  rw [checkStockForUser_foundItems,
    slowStep_fst_eq _ _ _ _ _ _ _ hEgg]
  by_cases hc : ((matchesIn alerts.egg_stock data.egg_stock).any
      (fun it => !st.lastSeenEgg.contains it.item_id) ||
        (!(matchesIn alerts.seed_stock data.seed_stock).isEmpty ||
          !(matchesIn alerts.gear_stock data.gear_stock).isEmpty)) = true
  · rw [if_pos hc]
    exact iff_of_true (by simp) hc
  · rw [if_neg hc]
    refine iff_of_false ?_ hc
    intro hmem
    rcases List.mem_append.mp hmem with hmem | hmem
    · rcases List.mem_append.mp hmem with hmem | hmem
      · rcases List.mem_append.mp hmem with hmem | hmem
        · exact not_mem_ite_block (matchesIn alerts.seed_stock data.seed_stock).isEmpty
            TrackedCat.seed (matchesIn alerts.seed_stock data.seed_stock)
            (blockOf_ne TrackedCat.egg TrackedCat.seed _ _ (by decide)) hmem
        · exact not_mem_ite_block (matchesIn alerts.gear_stock data.gear_stock).isEmpty
            TrackedCat.gear (matchesIn alerts.gear_stock data.gear_stock)
            (blockOf_ne TrackedCat.egg TrackedCat.gear _ _ (by decide)) hmem
      · exact List.not_mem_nil _ hmem
    · rcases slowStep_fst_cases .event alerts.eventshop_stock data.eventshop_stock
        (!(matchesIn alerts.seed_stock data.seed_stock).isEmpty ||
          !(matchesIn alerts.gear_stock data.gear_stock).isEmpty) now
        st.lastSeenEvent st.lastCheckEvent with hE | hE
      · rw [hE] at hmem
        exact List.not_mem_nil _ hmem
      · rw [hE] at hmem
        exact blockOf_ne TrackedCat.egg TrackedCat.event _ _ (by decide)
          (List.mem_singleton.mp hmem)

/-- Event-shop membership in `foundItems` as the boolean eligibility
condition of the live `checkStockForUser`. -/
theorem mem_foundItems_event_iff (alerts : AlertsConfig) (data : Snapshot)
    (now : Nat) (st : DifferState)
    (hEv : matchesIn alerts.eventshop_stock data.eventshop_stock ≠ []) :
    blockOf .event (matchesIn alerts.eventshop_stock data.eventshop_stock) ∈
        (checkStockForUser alerts data now st).foundItems ↔
      ((matchesIn alerts.eventshop_stock data.eventshop_stock).any
          (fun it => !st.lastSeenEvent.contains it.item_id) ||
        (!(matchesIn alerts.seed_stock data.seed_stock).isEmpty ||
          !(matchesIn alerts.gear_stock data.gear_stock).isEmpty)) = true := by
  rw [checkStockForUser_foundItems,
    slowStep_fst_eq _ _ _ _ _ _ _ hEv]
  by_cases hc : ((matchesIn alerts.eventshop_stock data.eventshop_stock).any
      (fun it => !st.lastSeenEvent.contains it.item_id) ||
        (!(matchesIn alerts.seed_stock data.seed_stock).isEmpty ||
          !(matchesIn alerts.gear_stock data.gear_stock).isEmpty)) = true
  · rw [if_pos hc]
    exact iff_of_true (by simp) hc
  · rw [if_neg hc]
    refine iff_of_false ?_ hc
    intro hmem
    rcases List.mem_append.mp hmem with hmem | hmem
    · rcases List.mem_append.mp hmem with hmem | hmem
      · rcases List.mem_append.mp hmem with hmem | hmem
        · exact not_mem_ite_block (matchesIn alerts.seed_stock data.seed_stock).isEmpty
            TrackedCat.seed (matchesIn alerts.seed_stock data.seed_stock)
            (blockOf_ne TrackedCat.event TrackedCat.seed _ _ (by decide)) hmem
        · exact not_mem_ite_block (matchesIn alerts.gear_stock data.gear_stock).isEmpty
            TrackedCat.gear (matchesIn alerts.gear_stock data.gear_stock)
            (blockOf_ne TrackedCat.event TrackedCat.gear _ _ (by decide)) hmem
      · rcases slowStep_fst_cases .egg alerts.egg_stock data.egg_stock
          (!(matchesIn alerts.seed_stock data.seed_stock).isEmpty ||
            !(matchesIn alerts.gear_stock data.gear_stock).isEmpty) now
          st.lastSeenEgg st.lastCheckEgg with hE | hE
        · rw [hE] at hmem
          exact List.not_mem_nil _ hmem
        · rw [hE] at hmem
          exact blockOf_ne TrackedCat.event TrackedCat.egg _ _ (by decide)
            (List.mem_singleton.mp hmem)
    · exact List.not_mem_nil _ hmem

/-- C1: for each slow-restock category with a non-empty watch-list-filtered
item set, its block is in the alert text iff some filtered item is absent
from that category's `lastSeenStock` entry, or seed/gear had a non-empty
watch-list match in the same snapshot. -/
theorem c1_slow_restock_eligibility_iff (alerts : AlertsConfig) (data : Snapshot)
    (now : Nat) (st : DifferState) :
    (matchesIn alerts.egg_stock data.egg_stock ≠ [] →
      (blockOf .egg (matchesIn alerts.egg_stock data.egg_stock) ∈
          (checkStockForUser alerts data now st).foundItems ↔
        ((∃ it ∈ matchesIn alerts.egg_stock data.egg_stock,
            it.item_id ∉ st.lastSeenEgg) ∨
          matchesIn alerts.seed_stock data.seed_stock ≠ [] ∨
          matchesIn alerts.gear_stock data.gear_stock ≠ []))) ∧
    (matchesIn alerts.eventshop_stock data.eventshop_stock ≠ [] →
      (blockOf .event (matchesIn alerts.eventshop_stock data.eventshop_stock) ∈
          (checkStockForUser alerts data now st).foundItems ↔
        ((∃ it ∈ matchesIn alerts.eventshop_stock data.eventshop_stock,
            it.item_id ∉ st.lastSeenEvent) ∨
          matchesIn alerts.seed_stock data.seed_stock ≠ [] ∨
          matchesIn alerts.gear_stock data.gear_stock ≠ []))) := by
  constructor
  · intro hEgg
    rw [mem_foundItems_egg_iff alerts data now st hEgg]
    simp [List.any_eq_true, List.isEmpty_eq_false]
  · intro hEv
    rw [mem_foundItems_event_iff alerts data now st hEv]
    simp [List.any_eq_true, List.isEmpty_eq_false]

/-- Witness for C1: `{egg_stock: [bug_egg]}` with the default watch list
and fresh memory — `bug_egg` is new, so the egg block is in the alert. -/
theorem c1_slow_restock_eligibility_iff_witness :
    matchesIn defaultAlerts.egg_stock eggOnlySnapshot.egg_stock ≠ [] ∧
    blockOf .egg (matchesIn defaultAlerts.egg_stock eggOnlySnapshot.egg_stock) ∈
      (checkStockForUser defaultAlerts eggOnlySnapshot 1000000000000
        initialDiffer).foundItems :=
  ⟨by decide,
    ((c1_slow_restock_eligibility_iff defaultAlerts eggOnlySnapshot 1000000000000
      initialDiffer).1 (by decide)).mpr (Or.inl (by decide))⟩

/-- C5: after reconciling any snapshot, for each slow-restock category with
a non-empty watch-list match, `lastSeenStock` holds exactly the new
filtered item-id set whether or not the category was eligible, and
`lastCheckTime30Min` either is untouched or is set to `now` with the
30-minute window genuinely elapsed (an immediate-category bundle alone
never moves it). -/
theorem c5_memory_update (alerts : AlertsConfig) (data : Snapshot) (now : Nat)
    (st : DifferState) :
    (matchesIn alerts.egg_stock data.egg_stock ≠ [] →
      (checkStockForUser alerts data now st).state.lastSeenEgg =
          jsSetOf ((matchesIn alerts.egg_stock data.egg_stock).map (·.item_id)) ∧
        ((checkStockForUser alerts data now st).state.lastCheckEgg = st.lastCheckEgg ∨
          ((checkStockForUser alerts data now st).state.lastCheckEgg = now ∧
            30 * 60 * 1000 ≤ now - st.lastCheckEgg))) ∧
    (matchesIn alerts.eventshop_stock data.eventshop_stock ≠ [] →
      (checkStockForUser alerts data now st).state.lastSeenEvent =
          jsSetOf ((matchesIn alerts.eventshop_stock data.eventshop_stock).map (·.item_id)) ∧
        ((checkStockForUser alerts data now st).state.lastCheckEvent = st.lastCheckEvent ∨
          ((checkStockForUser alerts data now st).state.lastCheckEvent = now ∧
            30 * 60 * 1000 ≤ now - st.lastCheckEvent))) := by
  constructor
  · intro hEgg
    exact ⟨slowStep_seen_eq _ _ _ _ _ _ _ hEgg, slowStep_chk_cases _ _ _ _ _ _ _⟩
  · intro hEv
    exact ⟨slowStep_seen_eq _ _ _ _ _ _ _ hEv, slowStep_chk_cases _ _ _ _ _ _ _⟩

/-- Witness for C5: `{egg_stock: [bug_egg]}`, default alerts, fresh
memory. -/
theorem c5_memory_update_witness :
    matchesIn defaultAlerts.egg_stock eggOnlySnapshot.egg_stock ≠ [] ∧
    ((checkStockForUser defaultAlerts eggOnlySnapshot 1000000000000
        initialDiffer).state.lastSeenEgg =
      jsSetOf ((matchesIn defaultAlerts.egg_stock eggOnlySnapshot.egg_stock).map
        (·.item_id)) ∧
      ((checkStockForUser defaultAlerts eggOnlySnapshot 1000000000000
          initialDiffer).state.lastCheckEgg = initialDiffer.lastCheckEgg ∨
        ((checkStockForUser defaultAlerts eggOnlySnapshot 1000000000000
            initialDiffer).state.lastCheckEgg = 1000000000000 ∧
          30 * 60 * 1000 ≤ 1000000000000 - initialDiffer.lastCheckEgg))) :=
  ⟨by decide,
    (c5_memory_update defaultAlerts eggOnlySnapshot 1000000000000 initialDiffer).1
      (by decide)⟩

/-- C3 counterexample: fanning the snapshot `{egg_stock: [bug_egg]}` out to
two subscribers with the same (default) watch list, the first subscriber's
evaluation sees `bug_egg` as new and gets the egg alert (one block) while
the second, evaluated after the first's in-fan-out memory mutation, gets
nothing — the novelty determination depends on fan-out position. -/
theorem c3_single_mutation_counterexample :
    ((fanOutChecks ["u1", "u2"] (fun _ => defaultAlerts) eggOnlySnapshot
        1000000000000 initialDiffer).1.map fun r => (r.1, r.2.length)) =
      [("u1", 1), ("u2", 0)] ∧ (1 : Nat) ≠ 0 := by
  exact ⟨by decide, by decide⟩

/-- C3 amended: category memory is mutated inside each per-subscriber
evaluation, not once before fan-out; whenever a slow-restock category has a
genuinely new watched item and no immediate category matches, the
evaluation of one subscriber alerts on the category and any evaluation of
the same snapshot from the post-state (a later position in the fan-out)
does not. -/
theorem c3_single_mutation_amended (alerts : AlertsConfig) (data : Snapshot)
    (now₁ now₂ : Nat) (st : DifferState)
    (hEgg : matchesIn alerts.egg_stock data.egg_stock ≠ [])
    (hNew : ∃ it ∈ matchesIn alerts.egg_stock data.egg_stock,
      it.item_id ∉ st.lastSeenEgg)
    (hSeed : matchesIn alerts.seed_stock data.seed_stock = [])
    (hGear : matchesIn alerts.gear_stock data.gear_stock = []) :
    blockOf .egg (matchesIn alerts.egg_stock data.egg_stock) ∈
      (checkStockForUser alerts data now₁ st).foundItems ∧
    blockOf .egg (matchesIn alerts.egg_stock data.egg_stock) ∉
      (checkStockForUser alerts data now₂
        (checkStockForUser alerts data now₁ st).state).foundItems := by
  have hany1 : ((matchesIn alerts.egg_stock data.egg_stock).any
      fun it => !st.lastSeenEgg.contains it.item_id) = true := by
    rw [List.any_eq_true]
    rcases hNew with ⟨it, hit, hni⟩
    exact ⟨it, hit, by simpa using hni⟩
  constructor
  · rw [mem_foundItems_egg_iff alerts data now₁ st hEgg]
    rw [hany1]
    rfl
  · have hseen : (checkStockForUser alerts data now₁ st).state.lastSeenEgg =
        jsSetOf ((matchesIn alerts.egg_stock data.egg_stock).map (·.item_id)) :=
      slowStep_seen_eq _ _ _ _ _ _ _ hEgg
    intro hmem
    have hiff := (mem_foundItems_egg_iff alerts data now₂
      (checkStockForUser alerts data now₁ st).state hEgg).mp hmem
    rw [hseen] at hiff
    have hany2 : ((matchesIn alerts.egg_stock data.egg_stock).any
        fun it => !(jsSetOf ((matchesIn alerts.egg_stock data.egg_stock).map
          (·.item_id))).contains it.item_id) = false := by
      rw [List.any_eq_false]
      intro it hit
      simpa using mem_jsSetOf.mpr (List.mem_map_of_mem _ hit)
    have hs : (matchesIn alerts.seed_stock data.seed_stock).isEmpty = true := by
      simp [hSeed]
    have hg : (matchesIn alerts.gear_stock data.gear_stock).isEmpty = true := by
      simp [hGear]
    rw [hany2, hs, hg] at hiff
    simp at hiff

/-- Witness for C3-amended at the counterexample inputs. -/
theorem c3_single_mutation_amended_witness :
    (matchesIn defaultAlerts.egg_stock eggOnlySnapshot.egg_stock ≠ [] ∧
      (∃ it ∈ matchesIn defaultAlerts.egg_stock eggOnlySnapshot.egg_stock,
        it.item_id ∉ initialDiffer.lastSeenEgg) ∧
      matchesIn defaultAlerts.seed_stock eggOnlySnapshot.seed_stock = [] ∧
      matchesIn defaultAlerts.gear_stock eggOnlySnapshot.gear_stock = []) ∧
    blockOf .egg (matchesIn defaultAlerts.egg_stock eggOnlySnapshot.egg_stock) ∈
      (checkStockForUser defaultAlerts eggOnlySnapshot 1000000000000
        initialDiffer).foundItems ∧
    blockOf .egg (matchesIn defaultAlerts.egg_stock eggOnlySnapshot.egg_stock) ∉
      (checkStockForUser defaultAlerts eggOnlySnapshot 1000060000
        (checkStockForUser defaultAlerts eggOnlySnapshot 1000000000000
          initialDiffer).state).foundItems :=
  ⟨⟨by decide, by decide, by decide, by decide⟩,
    c3_single_mutation_amended defaultAlerts eggOnlySnapshot 1000000000000
      1000060000 initialDiffer (by decide) (by decide) (by decide) (by decide)⟩

/-- First-wave fold: counts successes and failures and collects the failed
subscriber set in order. -/
theorem broadcastWave1_eq (send1 : String → Bool) (recips : List String) :
    broadcastWave1 send1 recips =
      (((recips.filter send1).length : Int),
        (((recips.filter fun u => !send1 u).length : Int)),
        recips.filter fun u => !send1 u) := by
  have key : ∀ (l : List String) (s f : Int) (acc : List String),
      l.foldl (fun acc u =>
          if send1 u then (acc.1 + 1, acc.2.1, acc.2.2)
          else (acc.1, acc.2.1 + 1, acc.2.2 ++ [u])) (s, f, acc) =
        (s + ((l.filter send1).length : Int),
          f + (((l.filter fun u => !send1 u).length : Int)),
          acc ++ (l.filter fun u => !send1 u)) := by
    intro l
    induction l with
    | nil => intro s f acc; simp
    | cons x xs ih =>
      intro s f acc
      by_cases hx : send1 x
      · rw [List.foldl_cons]
        have hred : (if send1 x = true
              then ((s, f, acc).1 + 1, (s, f, acc).2.1, (s, f, acc).2.2)
              else ((s, f, acc).1, (s, f, acc).2.1 + 1, (s, f, acc).2.2 ++ [x])) =
            ((s + 1 : Int), f, acc) := by simp [hx]
        rw [hred, ih,
          List.filter_cons_of_pos hx,
          List.filter_cons_of_neg (by simp [hx])]
        refine Prod.ext ?_ (Prod.ext rfl rfl)
        simp only [List.length_cons]
        push_cast
        ring
      · rw [List.foldl_cons]
        have hred : (if send1 x = true
              then ((s, f, acc).1 + 1, (s, f, acc).2.1, (s, f, acc).2.2)
              else ((s, f, acc).1, (s, f, acc).2.1 + 1, (s, f, acc).2.2 ++ [x])) =
            (s, (f + 1 : Int), acc ++ [x]) := by simp [hx]
        rw [hred, ih,
          List.filter_cons_of_neg hx,
          List.filter_cons_of_pos (by simp [hx])]
        refine Prod.ext rfl (Prod.ext ?_ ?_)
        · simp only [List.length_cons]
          push_cast
          ring
        · simp
  simpa [broadcastWave1] using key recips 0 0 []

/-- Retry fold: adds the retry successes to `successCount` and subtracts
them from `failCount`. -/
theorem broadcastRetry_eq (send2 : String → Bool) (failed : List String) :
    ∀ s f : Int, broadcastRetry send2 failed s f =
      (s + ((failed.filter send2).length : Int),
        f - ((failed.filter send2).length : Int)) := by
  induction failed with
  | nil => intro s f; simp [broadcastRetry]
  | cons x xs ih =>
    intro s f
    by_cases hx : send2 x
    · have hred : (if send2 x = true then ((s, f).1 + 1, (s, f).2 - 1)
            else (s, f)) = ((s + 1 : Int), (f - 1 : Int)) := by simp [hx]
      have hxs := ih (s + 1) (f - 1)
      simp only [broadcastRetry] at hxs ⊢
      rw [List.foldl_cons, hred, hxs, List.filter_cons_of_pos hx]
      refine Prod.ext ?_ ?_ <;>
        · simp only [List.length_cons]
          push_cast
          ring
    · have hred : (if send2 x = true then ((s, f).1 + 1, (s, f).2 - 1)
            else (s, f)) = (s, f) := by
        simp [hx]
      have hxs := ih s f
      simp only [broadcastRetry] at hxs ⊢
      rw [List.foldl_cons, hred, hxs, List.filter_cons_of_neg hx]

/-- C4: the broadcast dispatcher attempts all N recipients in the first
wave, retries exactly the failed ones once (no recipient successful in wave
one is ever resent), and if exactly the K wave-one failures all succeed on
retry the reported result is `succeeded = N`, `failed = 0`, while if all K
fail again it is `failed = K` (and `succeeded = N - K`). -/
theorem c4_broadcast_retry_once (recips : List String)
    (send1 send2 : String → Bool) (hnd : recips.Nodup) :
    (handleBroadcast recips send1 send2).retried =
        (recips.filter fun u => !send1 u) ∧
    (handleBroadcast recips send1 send2).attempts =
        recips ++ (recips.filter fun u => !send1 u) ∧
    (∀ u ∈ recips, send1 u = true →
      (handleBroadcast recips send1 send2).attempts.count u = recips.count u) ∧
    ((∀ u ∈ recips.filter (fun u => !send1 u), send2 u = true) →
      (handleBroadcast recips send1 send2).succeeded = (recips.length : Int) ∧
        (handleBroadcast recips send1 send2).failed = 0) ∧
    ((∀ u ∈ recips.filter (fun u => !send1 u), send2 u = false) →
      (handleBroadcast recips send1 send2).failed =
          ((recips.filter fun u => !send1 u).length : Int) ∧
        (handleBroadcast recips send1 send2).succeeded =
          (recips.length : Int) -
            ((recips.filter fun u => !send1 u).length : Int)) := by
  have h1 : handleBroadcast recips send1 send2 =
      { succeeded := ((recips.filter send1).length : Int) +
          (((recips.filter fun u => !send1 u).filter send2).length : Int)
        failed := (((recips.filter fun u => !send1 u).length : Int)) -
          (((recips.filter fun u => !send1 u).filter send2).length : Int)
        attempts := recips ++ (recips.filter fun u => !send1 u)
        retried := recips.filter fun u => !send1 u } := by
    simp only [handleBroadcast, broadcastWave1_eq, broadcastRetry_eq]
  have hlen := List.length_eq_length_filter_add (l := recips) send1
  refine ⟨by rw [h1], by rw [h1], ?_, ?_, ?_⟩
  · intro u hu hsu
    rw [h1]
    have hz : (recips.filter fun u => !send1 u).count u = 0 :=
      List.count_eq_zero.mpr fun hmem => by
        have := List.of_mem_filter hmem
        simp [hsu] at this
    simp [List.count_append, hz]
  · intro hall
    have hf : (recips.filter fun u => !send1 u).filter send2 =
        recips.filter fun u => !send1 u := List.filter_eq_self.mpr hall
    rw [h1]
    simp only [hf]
    refine ⟨?_, ?_⟩ <;> omega
  · intro hall
    have hf : (recips.filter fun u => !send1 u).filter send2 = [] :=
      List.filter_eq_nil_iff.mpr fun a ha => by simp [hall a ha]
    rw [h1]
    simp only [hf, List.length_nil]
    refine ⟨?_, ?_⟩ <;> omega

/-- Witness for C4: three recipients, only `"a"` delivered in wave one, and
both failures succeed on retry: `succeeded = 3`, `failed = 0`. -/
theorem c4_broadcast_retry_once_witness :
    (["a", "b", "c"] : List String).Nodup ∧
    (handleBroadcast ["a", "b", "c"] (fun u => u == "a")
      (fun _ => true)).succeeded = 3 ∧
    (handleBroadcast ["a", "b", "c"] (fun u => u == "a")
      (fun _ => true)).failed = 0 := by
  have h := (c4_broadcast_retry_once ["a", "b", "c"] (fun u => u == "a")
    (fun _ => true) (by decide)).2.2.2.1 (fun u _ => rfl)
  exact ⟨by decide, by simpa using h.1, h.2⟩

/-- Sorted encodings compare equal exactly when the unsorted encodings are
permutations of each other: the comparison is order-independent. -/
theorem encodeCat_eq_iff_perm (l₁ l₂ : List Item) :
    encodeCat l₁ = encodeCat l₂ ↔ (l₁.map encodeItem).Perm (l₂.map encodeItem) := by
  constructor
  · intro h
    have h' : List.insertionSort (· ≤ ·) (l₁.map encodeItem) =
        List.insertionSort (· ≤ ·) (l₂.map encodeItem) := h
    have p2 : (List.insertionSort (· ≤ ·) (l₁.map encodeItem)).Perm
        (l₂.map encodeItem) := by
      rw [h']
      exact List.perm_insertionSort _ _
    exact (List.perm_insertionSort _ _).symm.trans p2
  · intro h
    exact List.eq_of_perm_of_sorted
      ((List.perm_insertionSort _ _).trans
        (h.trans (List.perm_insertionSort _ _).symm))
      (List.sorted_insertionSort _ _) (List.sorted_insertionSort _ _)

/-- `catChanged` reports "no change" exactly on spec-equal category
values. -/
theorem catChanged_eq_false_iff (a b : Option (List Item)) :
    catChanged a b = false ↔ specSameCategory a b := by
  cases a <;> cases b <;>
    simp [catChanged, specSameCategory, encodeCat_eq_iff_perm]

/-- `hasStockChanged` is `false` exactly when all four tracked categories
are spec-equal to the stored snapshot. -/
theorem hasStockChanged_eq_false_iff (old msg : Snapshot) :
    hasStockChanged (some old) msg = false ↔
      ∀ c ∈ trackedCategories, specSameCategory (msg.get c) (old.get c) := by
  show (trackedCategories.any fun c => catChanged (msg.get c) (old.get c)) = false ↔ _
  rw [List.any_eq_false]
  constructor
  · intro h c hc
    exact (catChanged_eq_false_iff _ _).mp (Bool.not_eq_true _ ▸ (h c hc))
  · intro h c hc
    rw [(catChanged_eq_false_iff _ _).mpr (h c hc)]
    simp

/-- C6: a message with at least one stock category key is forwarded
(`onStockUpdate` invoked, `lastStockData` replaced) iff it is the first
such message or some tracked category differs from the previously forwarded
message under the order-independent sorted `id:quantity` encoding; a resend
identical up to per-category permutation is never forwarded and leaves
`lastStockData` untouched. -/
theorem c6_forward_iff_changed (last : Option Snapshot) (msg : Snapshot)
    (hstock : isStockMessage msg = true) :
    ((handleMessage last msg).2 = true ↔
      (last = none ∨ ∃ old, last = some old ∧ ∃ c ∈ trackedCategories,
        ¬ specSameCategory (msg.get c) (old.get c))) ∧
    (∀ old, last = some old →
      (∀ c ∈ trackedCategories, specSameCategory (msg.get c) (old.get c)) →
      (handleMessage last msg).2 = false ∧ (handleMessage last msg).1 = some old) := by
  cases last with
  | none =>
    constructor
    · simp [handleMessage, hstock, hasStockChanged]
    · intro old h
      exact absurd h (by simp)
  | some prev =>
    constructor
    · by_cases hb : hasStockChanged (some prev) msg = true
      · refine iff_of_true (by simp [handleMessage, hstock, hb]) ?_
        refine Or.inr ⟨prev, rfl, ?_⟩
        by_contra hall
        push_neg at hall
        rw [(hasStockChanged_eq_false_iff prev msg).mpr hall] at hb
        exact absurd hb (by simp)
      · have hb' : hasStockChanged (some prev) msg = false :=
          Bool.not_eq_true _ ▸ hb
        refine iff_of_false (by simp [handleMessage, hstock, hb']) ?_
        rintro (h | ⟨old', heq, c, hc, hdiff⟩)
        · exact absurd h (by simp)
        · obtain rfl : prev = old' := Option.some.inj heq
          exact hdiff ((hasStockChanged_eq_false_iff prev msg).mp hb' c hc)
    · intro old' heq hsame
      obtain rfl : prev = old' := Option.some.inj heq
      have hb : hasStockChanged (some prev) msg = false :=
        (hasStockChanged_eq_false_iff prev msg).mpr hsame
      exact ⟨by simp [handleMessage, hstock, hb], by simp [handleMessage, hstock, hb]⟩

/-- Witness for C6: a first message (empty `lastStockData`) carrying a seed
category is forwarded. -/
theorem c6_forward_iff_changed_witness :
    isStockMessage ⟨some [⟨"kiwi", 1⟩], none, none, none, none⟩ = true ∧
    (handleMessage none ⟨some [⟨"kiwi", 1⟩], none, none, none, none⟩).2 = true :=
  ⟨by decide,
    ((c6_forward_iff_changed none ⟨some [⟨"kiwi", 1⟩], none, none, none, none⟩
      (by decide)).1).mpr (Or.inl rfl)⟩

/-- C10: change detection compares only `seed_stock`, `gear_stock`,
`egg_stock` and `eventshop_stock`; for consecutive messages whose four
tracked categories are unchanged under the normalized encoding — e.g.
differing only in `cosmetic_stock` — `hasStockChanged` returns `false` and
the message is not forwarded, even though a message containing only
`cosmetic_stock` passes the stock-message filter in `handleMessage`. -/
theorem c10_cosmetic_changes_ignored :
    (∀ (old msg : Snapshot),
      (∀ c ∈ trackedCategories, specSameCategory (msg.get c) (old.get c)) →
      hasStockChanged (some old) msg = false ∧
        (handleMessage (some old) msg).2 = false ∧
        (handleMessage (some old) msg).1 = some old) ∧
    (∀ items : List Item,
      isStockMessage ⟨none, none, none, some items, none⟩ = true) := by
  constructor
  · intro old msg hsame
    have hb : hasStockChanged (some old) msg = false :=
      (hasStockChanged_eq_false_iff old msg).mpr hsame
    refine ⟨hb, ?_, ?_⟩ <;>
      by_cases hs : isStockMessage msg <;> simp [handleMessage, hs, hb]
  · intro items
    rfl

/-- Witness for C10: two messages identical on the four tracked categories
and differing in `cosmetic_stock` are treated as no change. -/
theorem c10_cosmetic_changes_ignored_witness :
    (∀ c ∈ trackedCategories, specSameCategory
      ((⟨some [⟨"kiwi", 1⟩], none, none, some [⟨"shades", 2⟩], none⟩ : Snapshot).get c)
      ((⟨some [⟨"kiwi", 1⟩], none, none, some [⟨"hat", 1⟩], none⟩ : Snapshot).get c)) ∧
    hasStockChanged (some ⟨some [⟨"kiwi", 1⟩], none, none, some [⟨"hat", 1⟩], none⟩)
        ⟨some [⟨"kiwi", 1⟩], none, none, some [⟨"shades", 2⟩], none⟩ = false ∧
    (handleMessage (some ⟨some [⟨"kiwi", 1⟩], none, none, some [⟨"hat", 1⟩], none⟩)
        ⟨some [⟨"kiwi", 1⟩], none, none, some [⟨"shades", 2⟩], none⟩).2 = false ∧
    isStockMessage ⟨none, none, none, some [⟨"hat", 1⟩], none⟩ = true := by
  have h := c10_cosmetic_changes_ignored.1
    ⟨some [⟨"kiwi", 1⟩], none, none, some [⟨"hat", 1⟩], none⟩
    ⟨some [⟨"kiwi", 1⟩], none, none, some [⟨"shades", 2⟩], none⟩ (by decide)
  exact ⟨by decide, h.1, h.2.1, c10_cosmetic_changes_ignored.2 [⟨"hat", 1⟩]⟩

/-- C8 counterexample: at 14:29:17 UTC+08:00 (here `now = 23357000` ms,
i.e. 06:29:17 UTC of day 0) the computed deadline is 14:30:00, not the
claimed 14:32:00. -/
theorem c8_grid_deadline_counterexample :
    (23357000 : Nat) + 8 * 3600000 = (14 * 60 + 29) * 60000 + 17000 ∧
    getNextCheckTime 23357000 + 8 * 3600000 = (14 * 60 + 30) * 60000 ∧
    getNextCheckTime 23357000 + 8 * 3600000 ≠ (14 * 60 + 32) * 60000 := by
  exact ⟨by decide, by decide, by decide⟩

/-- C8 amended: writing the UTC+8 time as `H` hours, `m < 60` minutes and
`s < 60000` ms-in-minute, the deadline is the same hour with the minute
rounded up to the next multiple of 5 and the sub-minute part zeroed.  That
equals the true round-up of the current time to the 5-minute grid whenever
`m` is not a multiple of 5, or the time is exactly on a minute boundary;
but when `m` is already a multiple of 5 and `s > 0` the computed deadline
lies in the past.  (At 14:29:17 the deadline is 14:30:00, not 14:32:00.)
The computation depends only on `now`, hence is independent of process
start time. -/
theorem c8_grid_deadline_amended (now H m s : Nat) (hm : m < 60)
    (hs : s < 60000)
    (hnow : now + 28800000 = 3600000 * H + 60000 * m + s) :
    (getNextCheckTime now + 28800000 = 3600000 * H + 300000 * ((m + 4) / 5)) ∧
    (m % 5 ≠ 0 →
      getNextCheckTime now + 28800000 =
        300000 * ((now + 28800000 + 299999) / 300000)) ∧
    (s = 0 →
      getNextCheckTime now + 28800000 =
        300000 * ((now + 28800000 + 299999) / 300000)) ∧
    (m % 5 = 0 → s ≠ 0 → getNextCheckTime now < now) := by
  simp only [getNextCheckTime]
  refine ⟨?_, fun h => ?_, fun h => ?_, fun h1 h2 => ?_⟩ <;> omega

/-- Witness for C8-amended at the 14:29:17 scenario time. -/
theorem c8_grid_deadline_amended_witness :
    ((29 : Nat) < 60 ∧ (17000 : Nat) < 60000 ∧
      (23357000 : Nat) + 28800000 = 3600000 * 14 + 60000 * 29 + 17000) ∧
    getNextCheckTime 23357000 + 28800000 = 3600000 * 14 + 300000 * ((29 + 4) / 5) :=
  ⟨⟨by decide, by decide, by decide⟩,
    (c8_grid_deadline_amended 23357000 14 29 17000 (by decide) (by decide)
      (by decide)).1⟩
